import Mathlib

/-!
Verification of the pomocop phase scheduler core.

The definitions below are a shallow embedding of the Rust code in
`src/pomo/session.rs` and `src/pomo/mod.rs`:

* `PhaseType`, `SessionConfig`, `SessionConfig.phase_at`,
  `SessionConfig.until_long`, `SessionConfig.build`, `Session`,
  `Session.advance`, `Session.skip`, `Session.stop` model the
  corresponding items of `session.rs`;
* the namespace `Mod` holds the variants from `mod.rs` where the two
  files differ (notably `Mod.Session.advance`, which adds the phase
  length as *seconds* to the start time, where `session.rs` adds
  *minutes*), together with a copy of its textually identical
  `phase_at`.

Timestamps (`chrono::DateTime<Utc>`) are modelled as integers counting
seconds; `chrono::Duration::minutes m` is `60 * m` seconds and
`chrono::Duration::seconds s` is `s` seconds.  All phase lengths are
whole minutes, so second granularity is exact.

Rust `usize` values here are all small counts and minute lengths; no
arithmetic in the modelled code can overflow or wrap (the only
operations are `%`, `*`, `+` on configuration-sized values), so they
are modelled as `Nat`.  A Rust panic (the `%` by zero that
`phase_at` performs when `interval * 2 == 0`) is modelled by returning
`none`, and every function that calls `phase_at` propagates the `none`.

The one-shot cancellation channel of a running phase is modelled at the
two points where the code observes it: `Session.skip` / `Session.stop`
take a boolean `sendOk` saying whether `Sender::send` succeeds (the
receiver is still alive), and `Phase.poll` takes a `RecvState` saying
what `Receiver::try_recv` returns at this poll.
-/

/-- `PhaseType` from `session.rs` / `mod.rs`: the kind of a phase,
carrying its length in minutes. -/
inductive PhaseType where
  | Work : Nat → PhaseType
  | Short : Nat → PhaseType
  | Long : Nat → PhaseType
deriving DecidableEq

/-- `PhaseType::length`. -/
def PhaseType.length : PhaseType → Nat
  | .Work l => l
  | .Short l => l
  | .Long l => l

/-- `SessionConfig` from `session.rs` / `mod.rs`. -/
structure SessionConfig where
  work : Nat
  short : Nat
  long : Nat
  interval : Nat
deriving DecidableEq

/-- `SessionConfig::default()`: work 25, short 5, long 15, interval 4. -/
def SessionConfig.default : SessionConfig :=
  { work := 25, short := 5, long := 15, interval := 4 }

/-- `SessionConfig::phase_at` from `session.rs` (lines 404-416).  The
source computes `phase_index % (self.interval * 2)` on the second
branch; when `interval * 2 == 0` that `%` panics in Rust, modelled here
by `none`. -/
def SessionConfig.phase_at (cfg : SessionConfig) (phase_index : Nat) : Option PhaseType :=
  if phase_index % 2 = 0 then
    some (PhaseType.Work cfg.work)
  else if cfg.interval * 2 = 0 then
    none
  else if phase_index % (cfg.interval * 2) = cfg.interval * 2 - 1 then
    some (PhaseType.Long cfg.long)
  else
    some (PhaseType.Short cfg.short)

namespace Mod

/-- `SessionConfig::phase_at` from `mod.rs` (lines 332-344); the source
text is character-for-character the body of the `session.rs` version. -/
def phase_at (cfg : SessionConfig) (phase_index : Nat) : Option PhaseType :=
  if phase_index % 2 = 0 then
    some (PhaseType.Work cfg.work)
  else if cfg.interval * 2 = 0 then
    none
  else if phase_index % (cfg.interval * 2) = cfg.interval * 2 - 1 then
    some (PhaseType.Long cfg.long)
  else
    some (PhaseType.Short cfg.short)

end Mod

/- Basic facts about `phase_at`. -/

theorem Mod.phase_at_eq (cfg : SessionConfig) (i : Nat) :
    Mod.phase_at cfg i = cfg.phase_at i := rfl

theorem phase_at_even (cfg : SessionConfig) (i : Nat) (h : i % 2 = 0) :
    cfg.phase_at i = some (PhaseType.Work cfg.work) := by
  simp [SessionConfig.phase_at, h]

/-- If `i % (2k) = 2k - 1` with `k ≥ 1` then `i` is odd. -/
theorem odd_of_mod_double_eq_pred {k i : Nat} (hk : 1 ≤ k)
    (h : i % (k * 2) = k * 2 - 1) : i % 2 = 1 := by
  have hdvd : (2 : Nat) ∣ k * 2 := ⟨k, Nat.mul_comm k 2⟩
  have h2 : i % (k * 2) % 2 = i % 2 := Nat.mod_mod_of_dvd i hdvd
  omega

theorem phase_at_long (cfg : SessionConfig) (hn : 1 ≤ cfg.interval) (i : Nat)
    (h : i % (cfg.interval * 2) = cfg.interval * 2 - 1) :
    cfg.phase_at i = some (PhaseType.Long cfg.long) := by
  have hodd : i % 2 = 1 := odd_of_mod_double_eq_pred hn h
  have hne : cfg.interval * 2 ≠ 0 := by omega
  simp [SessionConfig.phase_at, hodd, hne, h]

theorem phase_at_short (cfg : SessionConfig) (hn : 1 ≤ cfg.interval) (i : Nat)
    (hodd : i % 2 = 1) (h : i % (cfg.interval * 2) ≠ cfg.interval * 2 - 1) :
    cfg.phase_at i = some (PhaseType.Short cfg.short) := by
  have hne : cfg.interval * 2 ≠ 0 := by omega
  simp [SessionConfig.phase_at, hodd, hne, h]

theorem phase_at_isSome (cfg : SessionConfig) (hn : 1 ≤ cfg.interval) (i : Nat) :
    (cfg.phase_at i).isSome := by
  rcases Nat.mod_two_eq_zero_or_one i with h | h
  · rw [phase_at_even cfg i h]; rfl
  · by_cases hl : i % (cfg.interval * 2) = cfg.interval * 2 - 1
    · rw [phase_at_long cfg hn i hl]; rfl
    · rw [phase_at_short cfg hn i h hl]; rfl

theorem phase_at_odd_zero_interval (cfg : SessionConfig) (h0 : cfg.interval = 0)
    (i : Nat) (hodd : i % 2 = 1) : cfg.phase_at i = none := by
  simp [SessionConfig.phase_at, h0, hodd]

/-- Characterisation of the indices at which `phase_at` yields a long
break, for a valid interval. -/
theorem phase_at_eq_long_iff (cfg : SessionConfig) (hn : 1 ≤ cfg.interval)
    (i : Nat) (l : Nat) :
    cfg.phase_at i = some (PhaseType.Long l) ↔
      i % (cfg.interval * 2) = cfg.interval * 2 - 1 ∧ l = cfg.long := by
  constructor
  · intro h
    rcases Nat.mod_two_eq_zero_or_one i with he | ho
    · rw [phase_at_even cfg i he] at h
      exact absurd h (by simp)
    · by_cases hl : i % (cfg.interval * 2) = cfg.interval * 2 - 1
      · rw [phase_at_long cfg hn i hl] at h
        refine ⟨hl, ?_⟩
        cases h
        rfl
      · rw [phase_at_short cfg hn i ho hl] at h
        exact absurd h (by simp)
  · rintro ⟨hl, rfl⟩
    exact phase_at_long cfg hn i hl

/-- `PhaseHandle` from `session.rs`: details of the running phase held
by the session.  The one-shot `send` half is modelled at the point of
use (the `sendOk` argument of `skip` / `stop`). -/
structure PhaseHandle where
  started : Int
  phase_type : PhaseType
deriving DecidableEq

/-- `Session` from `session.rs`.  The random `id` and the member set
are outside the claims under verification and carry no logic; they are
omitted from the state. -/
structure Session where
  config : SessionConfig
  current_phase : Option PhaseHandle
  next_index : Nat
deriving DecidableEq

/-- `Session::from_config` from `session.rs`. -/
def Session.from_config (config : SessionConfig) : Session :=
  { config := config, current_phase := none, next_index := 0 }

/-- `SessionConfig::build` from `session.rs` (lines 347-349): it only
calls `Session::from_config`; there is no validation and no failure
path, so its type is total. -/
def SessionConfig.build (cfg : SessionConfig) : Session :=
  Session.from_config cfg

/-- The returned `Phase` future from `session.rs`, restricted to the
fields that determine its outcome (`session`, `recv` and `waker` carry
no outcome logic; the receiver is modelled by `RecvState` at each
poll).  The source field `end` is a reserved word in Lean and is named
`endTime` here. -/
structure Phase where
  endTime : Int
  phase_type : PhaseType
deriving DecidableEq

/-- `Session::advance` from `session.rs` (lines 80-102), with the
current time `now` passed explicitly in place of `Utc::now()`.  The
deadline is `start + Duration::minutes(phase_type.length())`, i.e.
`now + 60 * length` seconds.  `phase_at` can panic (interval zero at an
odd index), hence the `Option`. -/
def Session.advance (s : Session) (now : Int) : Option (Session × Phase) :=
  match s.config.phase_at s.next_index with
  | none => none
  | some phase_type =>
    let start := now
    let endT := start + 60 * (phase_type.length : Int)
    some
      ({ s with
          next_index := s.next_index + 1,
          current_phase := some { started := start, phase_type := phase_type } },
        { endTime := endT, phase_type := phase_type })

/-- `SessionError` from `session.rs`. -/
inductive SessionError where
  | NotActive
deriving DecidableEq

/-- `Session::skip` from `session.rs` (lines 111-123).  `sendOk` is
whether `send.send(PhaseMessage::Skip)` succeeds; the source discards
the send result with `.ok()` after logging, so the result does not
depend on it, and the handle is `take`n in either case. -/
def Session.skip (s : Session) (_sendOk : Bool) :
    Except SessionError PhaseType × Session :=
  match s.current_phase with
  | some phase =>
    (Except.ok phase.phase_type, { s with current_phase := none })
  | none => (Except.error SessionError.NotActive, s)

/-- `Session::stop` from `session.rs` (lines 131-141).  `sendOk` is
whether `send.send(PhaseMessage::Stop)` succeeds; the source maps a
send error to `SessionError::NotActive`, and the handle is `take`n in
either case. -/
def Session.stop (s : Session) (sendOk : Bool) :
    Except SessionError Unit × Session :=
  match s.current_phase with
  | some _ =>
    ((if sendOk then Except.ok () else Except.error SessionError.NotActive),
      { s with current_phase := none })
  | none => (Except.error SessionError.NotActive, s)

/-- `PhaseMessage` from `session.rs`. -/
inductive PhaseMessage where
  | Skip
  | Stop
deriving DecidableEq

/-- `PhaseResult` from `session.rs`. -/
inductive PhaseResult where
  | Completed : PhaseType → PhaseResult
  | Skipped : PhaseType → PhaseResult
  | Stopped : PhaseType → PhaseResult
  | Failed : PhaseType → PhaseResult
deriving DecidableEq

/-- The phase kind a `PhaseResult` carries. -/
def PhaseResult.kind : PhaseResult → PhaseType
  | .Completed k => k
  | .Skipped k => k
  | .Stopped k => k
  | .Failed k => k

/-- What `Receiver::try_recv` on the cancellation channel returns at a
given poll: a message, `Err(Closed)`, or `Err(Empty)`. -/
inductive RecvState where
  | msg : PhaseMessage → RecvState
  | closed
  | empty
deriving DecidableEq

/-- `Poll<PhaseResult>` from the `Future` impl. -/
inductive PollResult where
  | ready : PhaseResult → PollResult
  | pending
deriving DecidableEq

/-- `<Phase as Future>::poll` from `session.rs` (lines 240-329),
restricted to its outcome: the waker bookkeeping in the first half of
the function re-arms the background wake-up thread and never produces
or alters an outcome.  `recv` is what `self.recv.try_recv()` returns
and `now` is `Utc::now()` at the deadline check. -/
def Phase.poll (p : Phase) (recv : RecvState) (now : Int) : PollResult :=
  match recv with
  | RecvState.msg PhaseMessage.Skip => PollResult.ready (PhaseResult.Skipped p.phase_type)
  | RecvState.msg PhaseMessage.Stop => PollResult.ready (PhaseResult.Stopped p.phase_type)
  | RecvState.closed => PollResult.ready (PhaseResult.Failed p.phase_type)
  | RecvState.empty =>
    if p.endTime ≤ now then PollResult.ready (PhaseResult.Completed p.phase_type)
    else PollResult.pending

namespace Mod

/-- `PhaseHandle` from `mod.rs`: unlike `session.rs`, it does not store
the phase type. -/
structure PhaseHandle where
  started : Int
deriving DecidableEq

/-- `Session` from `mod.rs` (no member set; the random `id` carries no
logic and is omitted). -/
structure Session where
  config : SessionConfig
  current_phase : Option PhaseHandle
  next_index : Nat
deriving DecidableEq

/-- `Session::from_config` from `mod.rs`. -/
def Session.from_config (config : SessionConfig) : Session :=
  { config := config, current_phase := none, next_index := 0 }

/-- `SessionConfig::build` from `mod.rs`. -/
def build (cfg : SessionConfig) : Session :=
  Session.from_config cfg

/-- `Session::advance` from `mod.rs` (lines 50-71).  Note the deadline:
the source computes `end = start + Duration::seconds(phase_type.length()
as i64)` — the length is added as *seconds*, although `SessionConfig`
documents every length as minutes. -/
def Session.advance (s : Session) (now : Int) : Option (Session × Phase) :=
  match Mod.phase_at s.config s.next_index with
  | none => none
  | some phase_type =>
    let start := now
    let endT := start + (phase_type.length : Int)
    some
      ({ s with
          next_index := s.next_index + 1,
          current_phase := some { started := start } },
        { endTime := endT, phase_type := phase_type })

end Mod

/-- `SessionConfig::until_long` from `session.rs` (lines 420-429),
written with explicit fuel: the source is a `while let` loop that adds
up phase lengths until `phase_at` yields a `Long`.  `none` models
non-termination within the given fuel or a `phase_at` panic;
`until_long_fuel_sufficient` below proves that for a positive interval
the fuel `2 * interval` given by `until_long` always suffices, so the
fuelled function computes exactly what the source loop computes. -/
def until_long_go (cfg : SessionConfig) : Nat → Nat → Nat → Option Nat
  | 0, _, _ => none
  | fuel + 1, current, minutes =>
    match cfg.phase_at current with
    | some (PhaseType.Long _) => some minutes
    | some (PhaseType.Work length) => until_long_go cfg fuel (current + 1) (minutes + length)
    | some (PhaseType.Short length) => until_long_go cfg fuel (current + 1) (minutes + length)
    | none => none

/-- `SessionConfig::until_long`, entered with fuel `2 * interval` (one
period always contains a `Long` phase, see `until_long_go_spec`). -/
def SessionConfig.until_long (cfg : SessionConfig) (current : Nat) : Option Nat :=
  until_long_go cfg (2 * cfg.interval) current 0

/-- The length of the phase at index `i` (0 on the panic path; never
taken when `interval ≥ 1`). -/
def phaseLen (cfg : SessionConfig) (i : Nat) : Nat :=
  ((cfg.phase_at i).map PhaseType.length).getD 0

/-- The index, at or after `i`, of the next long break:
`i + (interval * 2 - 1 - i % (interval * 2))`. -/
def nextLong (cfg : SessionConfig) (i : Nat) : Nat :=
  i + (cfg.interval * 2 - 1 - i % (cfg.interval * 2))

/-- In any residue class computation, `i + (p - 1 - i % p)` has
residue `p - 1`. -/
theorem mod_add_gap {p i : Nat} (hp : 0 < p) :
    (i + (p - 1 - i % p)) % p = p - 1 := by
  have hs : i % p < p := Nat.mod_lt i hp
  have hdecomp : p * (i / p) + i % p = i := Nat.div_add_mod i p
  have h1 : i + (p - 1 - i % p) = p * (i / p) + (p - 1) := by omega
  rw [h1, Nat.mul_add_mod]
  exact Nat.mod_eq_of_lt (by omega)

/-- Any `j` with `i ≤ j < i + (p - 1 - i % p)` has residue below
`p - 1`. -/
theorem mod_lt_pred_of_between {p i j : Nat} (hp : 0 < p)
    (hij : i ≤ j) (hj : j < i + (p - 1 - i % p)) : j % p < p - 1 := by
  have hs : i % p < p := Nat.mod_lt i hp
  have hdecomp : p * (i / p) + i % p = i := Nat.div_add_mod i p
  have hjeq : j = p * (i / p) + (i % p + (j - i)) := by omega
  have hlt : i % p + (j - i) < p - 1 := by omega
  have hlt2 : i % p + (j - i) < p := by omega
  have hjr : (p * (i / p) + (i % p + (j - i))) % p = i % p + (j - i) := by
    rw [Nat.mul_add_mod]
    exact Nat.mod_eq_of_lt hlt2
  rw [← hjeq] at hjr
  omega

/-- Stepping within a period: if the residue is not yet `p - 1`, the
successor residue is one more. -/
theorem succ_mod_of_ne_pred {p i : Nat} (hp : 2 ≤ p) (h : i % p ≠ p - 1) :
    (i + 1) % p = i % p + 1 := by
  have hs : i % p < p := Nat.mod_lt i (by omega)
  rw [Nat.add_mod, Nat.mod_eq_of_lt (show (1 : Nat) < p by omega)]
  exact Nat.mod_eq_of_lt (by omega)

theorem nextLong_mod (cfg : SessionConfig) (hn : 1 ≤ cfg.interval) (i : Nat) :
    nextLong cfg i % (cfg.interval * 2) = cfg.interval * 2 - 1 := by
  unfold nextLong
  exact mod_add_gap (by omega)

theorem nextLong_phase (cfg : SessionConfig) (hn : 1 ≤ cfg.interval) (i : Nat) :
    cfg.phase_at (nextLong cfg i) = some (PhaseType.Long cfg.long) :=
  phase_at_long cfg hn _ (nextLong_mod cfg hn i)

theorem not_long_before_nextLong (cfg : SessionConfig) (hn : 1 ≤ cfg.interval)
    (i j : Nat) (hij : i ≤ j) (hj : j < nextLong cfg i) (l : Nat) :
    cfg.phase_at j ≠ some (PhaseType.Long l) := by
  intro h
  rw [phase_at_eq_long_iff cfg hn j l] at h
  unfold nextLong at hj
  have := mod_lt_pred_of_between (show 0 < cfg.interval * 2 by omega) hij hj
  omega

theorem nextLong_succ (cfg : SessionConfig) (hn : 1 ≤ cfg.interval) (i : Nat)
    (h : i % (cfg.interval * 2) ≠ cfg.interval * 2 - 1) :
    nextLong cfg (i + 1) = nextLong cfg i := by
  have hs : i % (cfg.interval * 2) < cfg.interval * 2 := Nat.mod_lt i (by omega)
  have hsucc := succ_mod_of_ne_pred (show 2 ≤ cfg.interval * 2 by omega) h
  unfold nextLong
  omega

theorem until_long_go_long (cfg : SessionConfig) (fuel current acc : Nat)
    (h : cfg.phase_at current = some (PhaseType.Long cfg.long)) :
    until_long_go cfg (fuel + 1) current acc = some acc := by
  simp [until_long_go, h]

theorem until_long_go_step (cfg : SessionConfig) (fuel current acc l : Nat)
    (h : cfg.phase_at current = some (PhaseType.Work l) ∨
      cfg.phase_at current = some (PhaseType.Short l)) :
    until_long_go cfg (fuel + 1) current acc =
      until_long_go cfg fuel (current + 1) (acc + l) := by
  rcases h with h | h <;> simp [until_long_go, h]

/-- The fuelled loop, given enough fuel, adds to its accumulator the
lengths of all phases from `current` up to (excluding) the next long
break. -/
theorem until_long_go_spec (cfg : SessionConfig) (hn : 1 ≤ cfg.interval) :
    ∀ fuel current acc,
      cfg.interval * 2 - 1 - current % (cfg.interval * 2) < fuel →
      until_long_go cfg fuel current acc =
        some (acc + ∑ j ∈ Finset.Ico current (nextLong cfg current), phaseLen cfg j) := by
  intro fuel
  induction fuel with
  | zero =>
    intro current acc h
    exact absurd h (Nat.not_lt_zero _)
  | succ fuel ih =>
    intro current acc h
    by_cases hl : current % (cfg.interval * 2) = cfg.interval * 2 - 1
    · rw [until_long_go_long cfg fuel current acc (phase_at_long cfg hn current hl)]
      have hnl : nextLong cfg current = current := by
        unfold nextLong
        omega
      rw [hnl]
      simp
    · have hs : current % (cfg.interval * 2) < cfg.interval * 2 :=
        Nat.mod_lt current (by omega)
      have hws : ∃ l, (cfg.phase_at current = some (PhaseType.Work l) ∨
          cfg.phase_at current = some (PhaseType.Short l)) := by
        rcases Nat.mod_two_eq_zero_or_one current with he | ho
        · exact ⟨cfg.work, Or.inl (phase_at_even cfg current he)⟩
        · exact ⟨cfg.short, Or.inr (phase_at_short cfg hn current ho hl)⟩
      obtain ⟨l, hws⟩ := hws
      have hlen : phaseLen cfg current = l := by
        rcases hws with h1 | h1 <;> simp [phaseLen, h1, PhaseType.length]
      rw [until_long_go_step cfg fuel current acc l hws]
      have hsucc : (current + 1) % (cfg.interval * 2) = current % (cfg.interval * 2) + 1 :=
        succ_mod_of_ne_pred (by omega) hl
      have hfuel : cfg.interval * 2 - 1 - (current + 1) % (cfg.interval * 2) < fuel := by
        omega
      rw [ih (current + 1) (acc + l) hfuel, nextLong_succ cfg hn current hl]
      have hcur_lt : current < nextLong cfg current := by
        unfold nextLong
        omega
      rw [Finset.sum_eq_sum_Ico_succ_bot hcur_lt (phaseLen cfg), hlen]
      congr 1
      omega

/-- `until_long` never runs out of fuel when the interval is positive:
it returns exactly the sum of the phase lengths up to the next long
break. -/
theorem until_long_eq_sum (cfg : SessionConfig) (hn : 1 ≤ cfg.interval) (i : Nat) :
    cfg.until_long i =
      some (∑ j ∈ Finset.Ico i (nextLong cfg i), phaseLen cfg j) := by
  have hs : i % (cfg.interval * 2) < cfg.interval * 2 := Nat.mod_lt i (by omega)
  have hfuel : cfg.interval * 2 - 1 - i % (cfg.interval * 2) < 2 * cfg.interval := by
    omega
  have := until_long_go_spec cfg hn (2 * cfg.interval) i 0 hfuel
  rw [SessionConfig.until_long, this]
  simp

/-- Whatever outcome a poll produces, it carries the phase's own kind. -/
theorem poll_kind (p : Phase) (recv : RecvState) (now : Int) (r : PhaseResult)
    (h : p.poll recv now = PollResult.ready r) : r.kind = p.phase_type := by
  rcases recv with m | _ | _
  · rcases m
    · injection h with h2
      rw [← h2]
      rfl
    · injection h with h2
      rw [← h2]
      rfl
  · injection h with h2
    rw [← h2]
    rfl
  · unfold Phase.poll at h
    by_cases hle : p.endTime ≤ now
    · rw [if_pos hle] at h
      injection h with h2
      rw [← h2]
      rfl
    · rw [if_neg hle] at h
      exact PollResult.noConfusion h

/-- Claim C1: for every config (with the spec's invariant `interval ≥ 1`)
and every phase index `i`, `phase_at i` returns `Work work` when `i` is
even; otherwise, with `period = interval * 2`, it returns `Long long`
when `i % period = period - 1` and `Short short` in every other case —
in both `session.rs` and `mod.rs` (whose `phase_at` bodies coincide). -/
theorem C1_phase_at_formula (cfg : SessionConfig) (hn : 1 ≤ cfg.interval) (i : Nat) :
    (i % 2 = 0 → cfg.phase_at i = some (PhaseType.Work cfg.work)) ∧
    (i % 2 ≠ 0 → i % (cfg.interval * 2) = cfg.interval * 2 - 1 →
      cfg.phase_at i = some (PhaseType.Long cfg.long)) ∧
    (i % 2 ≠ 0 → i % (cfg.interval * 2) ≠ cfg.interval * 2 - 1 →
      cfg.phase_at i = some (PhaseType.Short cfg.short)) ∧
    Mod.phase_at cfg i = cfg.phase_at i :=
  ⟨fun h => phase_at_even cfg i h,
    fun _ h => phase_at_long cfg hn i h,
    fun ho h => phase_at_short cfg hn i (by omega) h,
    Mod.phase_at_eq cfg i⟩

/-- Concrete check of C1: the default config at index 7 (odd, and
`7 % 8 = 7`) yields the long break. -/
theorem C1_phase_at_witness :
    1 ≤ SessionConfig.default.interval ∧
      SessionConfig.default.phase_at 7 = some (PhaseType.Long SessionConfig.default.long) :=
  ⟨by decide,
    (C1_phase_at_formula SessionConfig.default (by decide) 7).2.1 (by decide) (by decide)⟩

/-- Claim C2 (divergence witness): evaluated at the default config with
start time 0, `Session::advance` of `session.rs` sets the deadline
1500 seconds (25 minutes) ahead, but `Session::advance` of `mod.rs`
sets it only 25 seconds ahead — `mod.rs` adds the phase length with
`Duration::seconds`, contradicting its own `SessionConfig`
documentation (lengths in minutes) and the claim, which `session.rs`
satisfies. -/
theorem C2_advance_deadline_units :
    SessionConfig.default.build.advance 0 =
      some
        ({ config := SessionConfig.default,
           current_phase := some { started := 0, phase_type := PhaseType.Work 25 },
           next_index := 1 },
          { endTime := 1500, phase_type := PhaseType.Work 25 }) ∧
    (Mod.build SessionConfig.default).advance 0 =
      some
        ({ config := SessionConfig.default,
           current_phase := some { started := 0 },
           next_index := 1 },
          { endTime := 25, phase_type := PhaseType.Work 25 }) := by
  constructor
  · rfl
  · rfl

/-- Claim C3 is false on the code: `SessionConfig::build` performs no
validation, so the all-zero config — which violates every clause of the
invariant — builds a `Session` successfully, and the violation surfaces
only at use (`phase_at 1` divides by `interval * 2 = 0` and panics,
modelled as `none`). -/
theorem C3_build_rejects_counterexample :
    (SessionConfig.mk 0 0 0 0).build =
      { config := SessionConfig.mk 0 0 0 0, current_phase := none, next_index := 0 } ∧
    (SessionConfig.mk 0 0 0 0).phase_at 1 = none := by
  constructor
  · rfl
  · rfl

/-- Claim C3 (amended): `build` never rejects any config; it always
returns the fresh session for that config, and a zero interval instead
surfaces at use, when `phase_at` is called on an odd index. -/
theorem C3_build_no_validation (cfg : SessionConfig) :
    cfg.build = { config := cfg, current_phase := none, next_index := 0 } ∧
    (cfg.interval = 0 → cfg.phase_at 1 = none) :=
  ⟨rfl, fun h0 => phase_at_odd_zero_interval cfg h0 1 rfl⟩

/-- Concrete check of the amended C3 at a zero-interval config. -/
theorem C3_build_witness :
    (SessionConfig.mk 1 1 1 0).build =
      { config := SessionConfig.mk 1 1 1 0, current_phase := none, next_index := 0 } ∧
    ((SessionConfig.mk 1 1 1 0).interval = 0 → (SessionConfig.mk 1 1 1 0).phase_at 1 = none) :=
  C3_build_no_validation (SessionConfig.mk 1 1 1 0)

/-- Claim C4: each poll of a `Phase` resolves to at most one outcome,
case-analysed in priority order — a received `Skip` yields
`Skipped kind`, a received `Stop` yields `Stopped kind`, a closed
channel with no message yields `Failed kind`, and with an empty channel
the poll yields `Completed kind` at or past the deadline and stays
pending before it; every outcome carries the phase's own kind.  (That a
resolved future is polled no further is the Rust `Future` contract,
outside the embedding; within it, `poll` is a function, so one poll has
exactly one result.) -/
theorem C4_poll_outcome_cases (p : Phase) (recv : RecvState) (now : Int) :
    (recv = RecvState.msg PhaseMessage.Skip →
      p.poll recv now = PollResult.ready (PhaseResult.Skipped p.phase_type)) ∧
    (recv = RecvState.msg PhaseMessage.Stop →
      p.poll recv now = PollResult.ready (PhaseResult.Stopped p.phase_type)) ∧
    (recv = RecvState.closed →
      p.poll recv now = PollResult.ready (PhaseResult.Failed p.phase_type)) ∧
    (recv = RecvState.empty → p.endTime ≤ now →
      p.poll recv now = PollResult.ready (PhaseResult.Completed p.phase_type)) ∧
    (recv = RecvState.empty → now < p.endTime →
      p.poll recv now = PollResult.pending) ∧
    (∀ r, p.poll recv now = PollResult.ready r → r.kind = p.phase_type) := by
  refine ⟨?_, ?_, ?_, ?_, ?_, fun r h => poll_kind p recv now r h⟩
  · rintro rfl
    rfl
  · rintro rfl
    rfl
  · rintro rfl
    rfl
  · rintro rfl h
    unfold Phase.poll
    rw [if_pos h]
  · rintro rfl h
    unfold Phase.poll
    rw [if_neg (not_le.mpr h)]

/-- Concrete check of C4: a phase of kind `Work 25` with deadline 100
polled at time 100 with an empty channel completes with its own kind. -/
theorem C4_poll_witness :
    (Phase.mk 100 (PhaseType.Work 25)).poll RecvState.empty 100 =
      PollResult.ready (PhaseResult.Completed (PhaseType.Work 25)) :=
  (C4_poll_outcome_cases (Phase.mk 100 (PhaseType.Work 25)) RecvState.empty 100).2.2.2.1
    rfl (by decide)

/-- Equation lemmas for `skip` / `stop` on the two handle states. -/
theorem Session.skip_eq_some (s : Session) (ph : PhaseHandle)
    (h : s.current_phase = some ph) (b : Bool) :
    s.skip b = (Except.ok ph.phase_type, { s with current_phase := none }) := by
  unfold Session.skip
  rw [h]

theorem Session.skip_eq_none (s : Session) (h : s.current_phase = none) (b : Bool) :
    s.skip b = (Except.error SessionError.NotActive, s) := by
  unfold Session.skip
  rw [h]

theorem Session.stop_eq_some (s : Session) (ph : PhaseHandle)
    (h : s.current_phase = some ph) (b : Bool) :
    s.stop b =
      ((if b then Except.ok () else Except.error SessionError.NotActive),
        { s with current_phase := none }) := by
  unfold Session.stop
  rw [h]

theorem Session.stop_eq_none (s : Session) (h : s.current_phase = none) (b : Bool) :
    s.stop b = (Except.error SessionError.NotActive, s) := by
  unfold Session.stop
  rw [h]

/-- Claim C5: with a phase handle present and the send failing (the
receiver already dropped), `skip` tolerates the failure and returns
`Ok` with the running phase's kind, while `stop` surfaces the same
failure as `NotActive`. -/
theorem C5_skip_tolerates_stop_surfaces (s : Session) (ph : PhaseHandle)
    (h : s.current_phase = some ph) :
    (s.skip false).1 = Except.ok ph.phase_type ∧
    (s.stop false).1 = Except.error SessionError.NotActive := by
  rw [Session.skip_eq_some s ph h false, Session.stop_eq_some s ph h false]
  exact ⟨rfl, rfl⟩

/-- Concrete check of C5 on a running session. -/
theorem C5_witness :
    (Session.mk SessionConfig.default (some (PhaseHandle.mk 0 (PhaseType.Work 25))) 1).current_phase =
      some (PhaseHandle.mk 0 (PhaseType.Work 25)) ∧
    ((Session.mk SessionConfig.default (some (PhaseHandle.mk 0 (PhaseType.Work 25))) 1).skip false).1 =
      Except.ok (PhaseType.Work 25) ∧
    ((Session.mk SessionConfig.default (some (PhaseHandle.mk 0 (PhaseType.Work 25))) 1).stop false).1 =
      Except.error SessionError.NotActive :=
  ⟨rfl,
    C5_skip_tolerates_stop_surfaces
      (Session.mk SessionConfig.default (some (PhaseHandle.mk 0 (PhaseType.Work 25))) 1)
      (PhaseHandle.mk 0 (PhaseType.Work 25)) rfl⟩

/-- Claim C6: on a session with no phase handle, `skip` returns
`NotActive` and `stop` likewise, whatever the channel would have
done. -/
theorem C6_no_phase_not_active (s : Session) (h : s.current_phase = none)
    (b1 b2 : Bool) :
    (s.skip b1).1 = Except.error SessionError.NotActive ∧
    (s.stop b2).1 = Except.error SessionError.NotActive := by
  rw [Session.skip_eq_none s h b1, Session.stop_eq_none s h b2]
  exact ⟨rfl, rfl⟩

/-- Concrete check of C6 on a freshly built session. -/
theorem C6_witness :
    (SessionConfig.default.build).current_phase = none ∧
    ((SessionConfig.default.build).skip true).1 = Except.error SessionError.NotActive ∧
    ((SessionConfig.default.build).stop true).1 = Except.error SessionError.NotActive :=
  ⟨rfl, C6_no_phase_not_active SessionConfig.default.build rfl true true⟩

/-- Claim C9: `skip` and `stop` take the phase handle unconditionally,
so with a handle present the session afterwards has none — regardless
of the returned value, including a `stop` whose send failed and
returned `NotActive` — and any immediately following `skip` or `stop`
returns `NotActive`. -/
theorem C9_handle_taken_unconditionally (s : Session) (ph : PhaseHandle)
    (h : s.current_phase = some ph) (b1 b2 b3 : Bool) :
    (s.skip b1).2.current_phase = none ∧
    (s.stop b2).2.current_phase = none ∧
    (((s.stop false).2).skip b1).1 = Except.error SessionError.NotActive ∧
    (((s.stop false).2).stop b2).1 = Except.error SessionError.NotActive ∧
    (((s.skip b3).2).skip b1).1 = Except.error SessionError.NotActive ∧
    (((s.skip b3).2).stop b2).1 = Except.error SessionError.NotActive := by
  refine ⟨?_, ?_, ?_, ?_, ?_, ?_⟩
  · rw [Session.skip_eq_some s ph h b1]
  · rw [Session.stop_eq_some s ph h b2]
  · rw [Session.stop_eq_some s ph h false, Session.skip_eq_none _ rfl b1]
  · rw [Session.stop_eq_some s ph h false, Session.stop_eq_none _ rfl b2]
  · rw [Session.skip_eq_some s ph h b3, Session.skip_eq_none _ rfl b1]
  · rw [Session.skip_eq_some s ph h b3, Session.stop_eq_none _ rfl b2]

/-- Concrete check of C9: after stopping with a failed send, a second
stop is `NotActive`. -/
theorem C9_witness :
    (Session.mk SessionConfig.default (some (PhaseHandle.mk 0 (PhaseType.Short 5))) 2).current_phase =
      some (PhaseHandle.mk 0 (PhaseType.Short 5)) ∧
    (((Session.mk SessionConfig.default (some (PhaseHandle.mk 0 (PhaseType.Short 5))) 2).stop false).2.stop
        true).1 = Except.error SessionError.NotActive :=
  ⟨rfl,
    (C9_handle_taken_unconditionally
      (Session.mk SessionConfig.default (some (PhaseHandle.mk 0 (PhaseType.Short 5))) 2)
      (PhaseHandle.mk 0 (PhaseType.Short 5)) rfl true true true).2.2.2.1⟩

/-- Claim C10: for `interval ≥ 1` the divisor `interval * 2` of the
odd-index branch is nonzero, so `phase_at` is defined at every index
(in both files); and the precondition is necessary — with
`interval = 0`, every odd index takes that branch and divides by zero
(modelled as `none`). -/
theorem C10_phase_at_total (cfg : SessionConfig) :
    (1 ≤ cfg.interval →
      ∀ i, (cfg.phase_at i).isSome ∧ (Mod.phase_at cfg i).isSome) ∧
    (cfg.interval = 0 →
      ∀ i, i % 2 = 1 → cfg.phase_at i = none ∧ Mod.phase_at cfg i = none) := by
  constructor
  · intro hn i
    refine ⟨phase_at_isSome cfg hn i, ?_⟩
    rw [Mod.phase_at_eq]
    exact phase_at_isSome cfg hn i
  · intro h0 i hodd
    refine ⟨phase_at_odd_zero_interval cfg h0 i hodd, ?_⟩
    rw [Mod.phase_at_eq]
    exact phase_at_odd_zero_interval cfg h0 i hodd

/-- Concrete check of C10: defined at an odd index for the default
config, undefined at an odd index when the interval is zero. -/
theorem C10_witness :
    ((SessionConfig.default.phase_at 3).isSome ∧ (Mod.phase_at SessionConfig.default 3).isSome) ∧
    ((SessionConfig.mk 25 5 15 0).phase_at 1 = none ∧
      Mod.phase_at (SessionConfig.mk 25 5 15 0) 1 = none) :=
  ⟨(C10_phase_at_total SessionConfig.default).1 (by decide) 3,
    (C10_phase_at_total (SessionConfig.mk 25 5 15 0)).2 rfl 1 rfl⟩

/-- Two numbers with equal residue mod `p` inside one window of `p`
consecutive values are equal. -/
theorem eq_of_mod_eq_of_window {p m k1 k2 : Nat} (_hp : 0 < p)
    (h1 : m ≤ k1) (h1u : k1 < m + p) (h2 : m ≤ k2) (h2u : k2 < m + p)
    (hr : k1 % p = k2 % p) : k1 = k2 := by
  have d1 : p * (k1 / p) + k1 % p = k1 := Nat.div_add_mod k1 p
  have d2 : p * (k2 / p) + k2 % p = k2 := Nat.div_add_mod k2 p
  rcases Nat.lt_trichotomy (k1 / p) (k2 / p) with hq | hq | hq
  · have hle : p * (k1 / p + 1) ≤ p * (k2 / p) :=
      Nat.mul_le_mul (Nat.le_refl p) (Nat.succ_le_of_lt hq)
    have hmul : p * (k1 / p + 1) = p * (k1 / p) + p := by ring
    omega
  · rw [hq] at d1
    omega
  · have hle : p * (k2 / p + 1) ≤ p * (k1 / p) :=
      Nat.mul_le_mul (Nat.le_refl p) (Nat.succ_le_of_lt hq)
    have hmul : p * (k2 / p + 1) = p * (k2 / p) + p := by ring
    omega

/-- Claim C7: for every config with `interval = n ≥ 1`, every window of
`2n` consecutive phase indices contains exactly one index at which
`phase_at` yields the long break. -/
theorem C7_unique_long_in_window (cfg : SessionConfig) (hn : 1 ≤ cfg.interval) (m : Nat) :
    ∃! k, m ≤ k ∧ k < m + 2 * cfg.interval ∧
      cfg.phase_at k = some (PhaseType.Long cfg.long) := by
  have hp : 0 < cfg.interval * 2 := by omega
  have hm : m % (cfg.interval * 2) < cfg.interval * 2 := Nat.mod_lt m hp
  refine ⟨nextLong cfg m, ⟨Nat.le_add_right m _, ?_, nextLong_phase cfg hn m⟩, ?_⟩
  · unfold nextLong
    omega
  · rintro y ⟨hy1, hy2, hy3⟩
    have hym := ((phase_at_eq_long_iff cfg hn y cfg.long).mp hy3).1
    have hnm := nextLong_mod cfg hn m
    have hub : nextLong cfg m < m + cfg.interval * 2 := by
      unfold nextLong
      omega
    exact eq_of_mod_eq_of_window hp hy1 (by omega) (Nat.le_add_right m _) hub
      (hym.trans hnm.symm)

/-- Concrete check of C7 in the window 3..10 of the default config (the
unique long break is index 7). -/
theorem C7_witness :
    1 ≤ SessionConfig.default.interval ∧
      ∃! k, 3 ≤ k ∧ k < 3 + 2 * SessionConfig.default.interval ∧
        SessionConfig.default.phase_at k = some (PhaseType.Long SessionConfig.default.long) :=
  ⟨by decide, C7_unique_long_in_window SessionConfig.default (by decide) 3⟩

/-- Claim C8: with `interval ≥ 1`, `until_long fromIndex` terminates
(the fuelled loop returns `some`), and its value is the sum of the
lengths of the phases at the consecutive indices from `fromIndex` up
to, and not including, the first `Long` index; in particular it is `0`
when the phase at `fromIndex` is already `Long`. -/
theorem C8_until_long_sum (cfg : SessionConfig) (hn : 1 ≤ cfg.interval) (i : Nat) :
    ∃ L, i ≤ L ∧
      cfg.phase_at L = some (PhaseType.Long cfg.long) ∧
      (∀ j, i ≤ j → j < L → ∀ l, cfg.phase_at j ≠ some (PhaseType.Long l)) ∧
      cfg.until_long i = some (∑ j ∈ Finset.Ico i L, phaseLen cfg j) ∧
      (cfg.phase_at i = some (PhaseType.Long cfg.long) → cfg.until_long i = some 0) := by
  refine ⟨nextLong cfg i, Nat.le_add_right i _, nextLong_phase cfg hn i,
    fun j hij hj l => not_long_before_nextLong cfg hn i j hij hj l,
    until_long_eq_sum cfg hn i, ?_⟩
  intro hLong
  have hmod := ((phase_at_eq_long_iff cfg hn i cfg.long).mp hLong).1
  have hsum := until_long_eq_sum cfg hn i
  have hnl : nextLong cfg i = i := by
    unfold nextLong
    omega
  rw [hsum, hnl]
  simp

/-- Concrete check of C8 at config work 25, short 5, long 15,
interval 1, from index 0: the next long break is index 1 and the sum of
lengths before it is the 25-minute work phase. -/
theorem C8_witness :
    (1 ≤ (SessionConfig.mk 25 5 15 1).interval ∧
      (SessionConfig.mk 25 5 15 1).until_long 0 = some 25) ∧
    ∃ L, 0 ≤ L ∧
      (SessionConfig.mk 25 5 15 1).phase_at L =
        some (PhaseType.Long (SessionConfig.mk 25 5 15 1).long) ∧
      (∀ j, 0 ≤ j → j < L →
        ∀ l, (SessionConfig.mk 25 5 15 1).phase_at j ≠ some (PhaseType.Long l)) ∧
      (SessionConfig.mk 25 5 15 1).until_long 0 =
        some (∑ j ∈ Finset.Ico 0 L, phaseLen (SessionConfig.mk 25 5 15 1) j) ∧
      ((SessionConfig.mk 25 5 15 1).phase_at 0 =
          some (PhaseType.Long (SessionConfig.mk 25 5 15 1).long) →
        (SessionConfig.mk 25 5 15 1).until_long 0 = some 0) :=
  ⟨⟨by decide, by decide⟩, C8_until_long_sum (SessionConfig.mk 25 5 15 1) (by decide) 0⟩
